import Mathlib

/-!
Verification of the fuyun_tools orchestration layer against its
natural-language specification.

The definitions below are shallow embeddings of the frontend code:
  * `Clip.*`    — the clipboard overlay (frontend/src/pages/clipboard/App.vue)
  * `RD.*`      — the result-display window (frontend/src/pages/result_display/App.vue)
  * `Toolbar.*` — the selection toolbar (selection_toolbar page)
plus spec-modelled definitions for the backend commands that are not part
of the frontend sources (the History Store `push` and `select_and_fill`).
-/

namespace Clip

/-- Payload of the `show-window` event.  `history = none` models a payload
whose `history` field is not an array (the code substitutes `[]`);
`selectedIndex = none` models an `undefined` selected index (the code
substitutes `0`). -/
structure ShowPayload where
  history : Option (List String)
  selectedIndex : Option Int
deriving Repr, DecidableEq

/-- State of the clipboard overlay window: the displayed history snapshot,
the selection cursor (`-1` is the "none" sentinel), and the visibility flag. -/
structure State where
  history : List String
  selectedIndex : Int
  isVisible : Bool
deriving Repr, DecidableEq

/-- Initial state of the overlay component (`history = ref([])`,
`selectedIndex = ref(-1)`, `isVisible = ref(false)`). -/
def init : State := { history := [], selectedIndex := -1, isVisible := false }

/-- `updateSelection(index)`: out-of-range indices are ignored, otherwise the
cursor is set to `index` (the scrolling side effect is not modelled). -/
def updateSelection (s : State) (index : Int) : State :=
  if index < 0 ∨ (s.history.length : Int) ≤ index then s
  else { s with selectedIndex := index }

/-- `showWindow(data)`: replaces the displayed snapshot with the payload's
history, sets the cursor to the payload's requested index (default `0`),
marks the window visible, and — only when the new history is non-empty —
clamps an out-of-range cursor to `0` via `updateSelection`. -/
def showWindow (_s : State) (p : ShowPayload) : State :=
  let hist := p.history.getD []
  let sel := p.selectedIndex.getD 0
  let s1 : State := { history := hist, selectedIndex := sel, isVisible := true }
  if 0 < hist.length then
    let sel2 := if sel < 0 ∨ (hist.length : Int) ≤ sel then 0 else sel
    updateSelection { s1 with selectedIndex := sel2 } sel2
  else s1

/-- `deleteItem(index)` (optimistic local update): splice the entry at
`index` out of the displayed history, then clamp the cursor with
`Math.max(0, newLength - 1)` when it is `≥` the new length.  The backend
`delete_item` call only affects the backend store, not this state. -/
def deleteItem (s : State) (index : Nat) : State :=
  let hist := s.history.eraseIdx index
  let sel :=
    if (hist.length : Int) ≤ s.selectedIndex then
      max 0 ((hist.length : Int) - 1)
    else s.selectedIndex
  { s with history := hist, selectedIndex := sel }

/-- `handleClick(index)`: pointer click selects the clicked entry. -/
def handleClick (s : State) (index : Nat) : State :=
  updateSelection s (index : Int)

/-- `selectAndFillDirect(index)`: invokes the backend `select_and_fill`;
on success the window is hidden, on failure (`catch`) the state is
unchanged.  `ok` is the outcome of the backend call. -/
def selectAndFillDirect (s : State) (ok : Bool) : State :=
  if ok then { s with isVisible := false } else s

/-- Keys handled by `handleKeydown`. -/
inductive Key where
  | arrowLeft
  | arrowRight
  | enter
deriving Repr, DecidableEq

/-- `handleKeydown(event)`: ignored while the window is not visible;
ArrowLeft/ArrowRight move the cursor through `updateSelection` (only when
the history is non-empty); Enter triggers `selectAndFillDirect` when the
cursor is in range (`fillOk` is the backend outcome). -/
def handleKeydown (s : State) (k : Key) (fillOk : Bool) : State :=
  if s.isVisible = false then s
  else
    match k with
    | .arrowLeft =>
        if 0 < s.history.length then
          updateSelection s (if 0 < s.selectedIndex then s.selectedIndex - 1 else 0)
        else s
    | .arrowRight =>
        if 0 < s.history.length then
          updateSelection s
            (if s.selectedIndex < (s.history.length : Int) - 1 then s.selectedIndex + 1
             else (s.history.length : Int) - 1)
        else s
    | .enter =>
        if 0 ≤ s.selectedIndex ∧ s.selectedIndex < (s.history.length : Int) then
          selectAndFillDirect s fillOk
        else s

/-- `blur` handler: `invoke('window_blur')` then clear the visibility flag;
when the invoke throws (`ok = false`) the state is unchanged. -/
def blur (s : State) (ok : Bool) : State :=
  if ok then { s with isVisible := false } else s

/-- One external stimulus to the overlay component. -/
inductive Event where
  | showEv (p : ShowPayload)
  | key (k : Key) (fillOk : Bool)
  | click (i : Nat)
  | dblclick (i : Nat) (fillOk : Bool)
  | delete (i : Nat)
  | blurEv (ok : Bool)
deriving Repr

/-- The overlay's reaction to one stimulus. -/
def step (s : State) : Event → State
  | .showEv p => showWindow s p
  | .key k fillOk => handleKeydown s k fillOk
  | .click i => handleClick s i
  | .dblclick i fillOk =>
      if i < s.history.length then selectAndFillDirect s fillOk else s
  | .delete i => deleteItem s i
  | .blurEv ok => blur s ok

/-- States reachable from `init` by any sequence of stimuli. -/
inductive Reachable : State → Prop where
  | init : Reachable init
  | step {s : State} (e : Event) : Reachable s → Reachable (step s e)

/-- The cursor-bound property actually maintained by the code: whenever the
displayed history is non-empty, the cursor is a valid index into it.  (When
the history is empty the code does *not* force the cursor to `-1`.) -/
def CursorOk (s : State) : Prop :=
  0 < s.history.length → 0 ≤ s.selectedIndex ∧ s.selectedIndex < (s.history.length : Int)

end Clip

namespace RD

/-- JavaScript truthiness of the `content` field of a `result-update`
payload: `none` models a missing field, `some ""` an empty string; both are
falsy. -/
def truthy : Option String → Bool
  | none => false
  | some c => !(c == "")

/-- Body of the `result-update` listener: when `data.content` is truthy it
is appended to `resultText` and the view scrolls to the bottom; otherwise
nothing happens.  Returns the new accumulated text and whether
`scrollToBottom` ran. -/
def onResultUpdate (resultText : String) (content : Option String) : String × Bool :=
  if truthy content then (resultText ++ content.getD "", true)
  else (resultText, false)

/-- Events delivered to the result-display window.  Per the external
interface, a `streaming-fragment` (`result-update`) carries a session id
and a content field; a `streaming-reset` (`result-clean`) clears the
accumulated output. -/
inductive Event where
  | clean
  | update (sessionId : Nat) (content : Option String)
deriving Repr, DecidableEq

/-- Effect of one event on the accumulated output: the `result-clean`
listener sets `resultText` to `""`; the `result-update` listener appends
truthy content.  Note the listener reads only `data.content` — the session
id is not consulted. -/
def stepText (resultText : String) : Event → String
  | .clean => ""
  | .update _ c => (onResultUpdate resultText c).1

/-- Accumulated output after a sequence of events, in arrival order. -/
def run (resultText : String) (es : List Event) : String :=
  es.foldl stepText resultText

/-- Component state read and written by `handleLanguageChange`. -/
structure LCState where
  mode : String
  originalText : String
  sourceLanguage : String
  targetLanguage : String
  explanationLanguage : String
  resultText : String
deriving Repr, DecidableEq

/-- Backend streaming commands the result display can start. -/
inductive StreamCmd where
  | streamTranslate (text sourceLanguage targetLanguage : String)
  | streamExplain (text targetLanguage : String)
deriving Repr, DecidableEq

/-- Outcome of `handleLanguageChange` up to the backend call: the state at
the moment the `invoke` is issued, the successive values assigned to
`resultText` (in program order, all before the invoke), and the command
invoked, if any. -/
structure LCResult where
  state : LCState
  writes : List String
  invoked : Option StreamCmd
deriving Repr, DecidableEq

/-- `handleLanguageChange()`: returns immediately when `originalText` is
empty; otherwise assigns `resultText = ''`, then a progress placeholder,
then invokes `stream_translate_text` or `stream_explain_text` according to
`mode`. -/
def handleLanguageChange (s : LCState) : LCResult :=
  if s.originalText = "" then ⟨s, [], none⟩
  else if s.mode = "translation" then
    ⟨{ s with resultText := "正在翻译..." }, ["", "正在翻译..."],
      some (.streamTranslate s.originalText s.sourceLanguage s.targetLanguage)⟩
  else
    ⟨{ s with resultText := "正在解释..." }, ["", "正在解释..."],
      some (.streamExplain s.originalText s.explanationLanguage)⟩

end RD

namespace Toolbar

/-- State of the selection toolbar: the text captured from the last
`selected-text` event. -/
structure State where
  selectedText : String
deriving Repr, DecidableEq

/-- Backend commands the toolbar buttons can invoke. -/
inductive Cmd where
  | streamTranslate (text sourceLanguage targetLanguage : String)
  | streamExplain (text targetLanguage : String)
  | copyText (text : String)
deriving Repr, DecidableEq

/-- Translate button: returns without effect when `selectedText` is empty,
otherwise invokes `stream_translate_text` with fixed languages. -/
def handleTranslate (s : State) : State × Option Cmd :=
  if s.selectedText = "" then (s, none)
  else (s, some (.streamTranslate s.selectedText "英文" "简体中文"))

/-- Explain button: returns without effect when `selectedText` is empty,
otherwise invokes `stream_explain_text`. -/
def handleExplain (s : State) : State × Option Cmd :=
  if s.selectedText = "" then (s, none)
  else (s, some (.streamExplain s.selectedText "中文"))

/-- Copy button: returns without effect when `selectedText` is empty,
otherwise invokes `copy_text`. -/
def handleCopy (s : State) : State × Option Cmd :=
  if s.selectedText = "" then (s, none)
  else (s, some (.copyText s.selectedText))

end Toolbar

namespace Core

/-- Synchronous command failures reported by the backend. -/
inductive Error where
  | IndexOutOfRange
deriving Repr, DecidableEq

/-- Modelled from the spec: the backend History Store `push` operation is
not among the provided sources.  Following §4.1, if `entry` equals the
current head by content equality the push is a no-op; otherwise the entry
is inserted at the head and tail entries beyond `capacity` are trimmed. -/
def push (capacity : Nat) (store : List String) (entry : String) : List String :=
  if store.head? = some entry then store
  else List.take capacity (entry :: store)

/-- Modelled from the spec: the backend `select_and_fill` command is not
among the provided sources.  Following §4.5 and §6, it validates `index`
against the live store bounds at call time, failing with `IndexOutOfRange`
and leaving all state unchanged when `index ∉ [0, length)`; on success it
yields the selected entry content, which is written to the system
clipboard. -/
def select_and_fill (store : List String) (index : Int) : Except Error String :=
  if 0 ≤ index ∧ index < (store.length : Int) then .ok (store.getD index.toNat "")
  else .error .IndexOutOfRange

/-- Combined system state for the commit pipeline: the backend store and
clipboard together with the overlay window state. -/
structure Sys where
  store : List String
  clipboard : String
  ui : Clip.State
deriving Repr, DecidableEq

/-- The commit pipeline as the overlay drives it: the frontend
`selectAndFillDirect` invokes the backend `select_and_fill`; on success the
entry content becomes the clipboard content and the overlay hides; on
failure the `catch` leaves every piece of state unchanged. -/
def selectAndFill (sys : Sys) (index : Int) : Sys × Except Error Unit :=
  match select_and_fill sys.store index with
  | .ok content =>
      ({ sys with clipboard := content, ui := { sys.ui with isVisible := false } }, .ok ())
  | .error e => (sys, .error e)

end Core

/-! ### Helper lemmas -/

theorem string_foldl_append_init (l : List String) :
    ∀ x y : String, l.foldl (fun r s => r ++ s) (x ++ y) = x ++ l.foldl (fun r s => r ++ s) y := by
  induction l with
  | nil => intro x y; rfl
  | cons a l ih =>
      intro x y
      show l.foldl _ ((x ++ y) ++ a) = x ++ l.foldl _ (y ++ a)
      rw [String.append_assoc]
      exact ih x (y ++ a)

theorem string_join_cons (f : String) (fs : List String) :
    String.join (f :: fs) = f ++ String.join fs := by
  show fs.foldl (fun r s => r ++ s) ("" ++ f) = f ++ fs.foldl (fun r s => r ++ s) ""
  rw [show ("" ++ f : String) = f ++ "" by rw [String.empty_append, String.append_empty]]
  exact string_foldl_append_init fs f ""

theorem rd_run_map_update (sid : Nat) (frags : List String) :
    ∀ acc : String,
      RD.run acc (frags.map (fun f => RD.Event.update sid (some f))) = acc ++ String.join frags := by
  induction frags with
  | nil => intro acc; simp [RD.run, String.join, String.append_empty]
  | cons f fs ih =>
      intro acc
      show RD.run (RD.stepText acc (RD.Event.update sid (some f))) _ = _
      rw [ih, string_join_cons]
      by_cases h : f = ""
      · simp [RD.stepText, RD.onResultUpdate, RD.truthy, h, String.empty_append]
      · have hstep : RD.stepText acc (RD.Event.update sid (some f)) = acc ++ f := by
          simp [RD.stepText, RD.onResultUpdate, RD.truthy, h]
        rw [hstep, String.append_assoc]

theorem core_push_length_le {capacity : Nat} {store : List String} (entry : String)
    (h : store.length ≤ capacity) : (Core.push capacity store entry).length ≤ capacity := by
  unfold Core.push
  split
  · exact h
  · simp [List.length_take]

theorem core_foldl_push_length_le (capacity : Nat) (entries : List String) :
    ∀ store : List String, store.length ≤ capacity →
      (entries.foldl (Core.push capacity) store).length ≤ capacity := by
  induction entries with
  | nil => intro store h; simpa using h
  | cons e es ih => intro store h; exact ih _ (core_push_length_le e h)

/-! ### Claims -/

/-- C9: clicking the selection toolbar translate, explain, or copy button
while the recorded selected text is empty returns without invoking any
backend command and without changing any component state. -/
theorem toolbar_empty_selection_noop (s : Toolbar.State) (h : s.selectedText = "") :
    Toolbar.handleTranslate s = (s, none) ∧
    Toolbar.handleExplain s = (s, none) ∧
    Toolbar.handleCopy s = (s, none) := by
  simp [Toolbar.handleTranslate, Toolbar.handleExplain, Toolbar.handleCopy, h]

theorem toolbar_empty_selection_noop_witness :
    Toolbar.handleTranslate ⟨""⟩ = (⟨""⟩, none) ∧
    Toolbar.handleExplain ⟨""⟩ = (⟨""⟩, none) ∧
    Toolbar.handleCopy ⟨""⟩ = (⟨""⟩, none) :=
  toolbar_empty_selection_noop ⟨""⟩ rfl

/-- C10: a `result-update` event whose payload content is empty or missing
leaves the accumulated output unchanged and performs no scroll-to-bottom. -/
theorem result_update_empty_content_noop (t : String) (c : Option String)
    (h : c = none ∨ c = some "") :
    RD.onResultUpdate t c = (t, false) := by
  rcases h with h | h <;> simp [RD.onResultUpdate, RD.truthy, h]

theorem result_update_empty_content_noop_witness :
    RD.onResultUpdate "Hel" none = ("Hel", false) ∧
    RD.onResultUpdate "Hel" (some "") = ("Hel", false) :=
  ⟨result_update_empty_content_noop "Hel" none (Or.inl rfl),
   result_update_empty_content_noop "Hel" (some "") (Or.inr rfl)⟩

/-- C8: `push(entry)` is a no-op when `entry` equals the current head by
content equality; otherwise the entry is inserted at the head and the tail
is trimmed to `capacity`; `length ≤ capacity` holds after every sequence of
pushes; and with `capacity = 2`, pushing `"x"`, `"y"`, `"z"` yields
`["z", "y"]`. -/
theorem push_spec :
    (∀ (cap : Nat) (store : List String) (entry : String),
        store.head? = some entry → Core.push cap store entry = store) ∧
    (∀ (cap : Nat) (store : List String) (entry : String),
        store.head? ≠ some entry → Core.push cap store entry = List.take cap (entry :: store)) ∧
    (∀ (cap : Nat) (entries : List String),
        (entries.foldl (Core.push cap) []).length ≤ cap) ∧
    ["x", "y", "z"].foldl (Core.push 2) [] = ["z", "y"] := by
  refine ⟨?_, ?_, ?_, ?_⟩
  · intro cap store entry h; simp [Core.push, h]
  · intro cap store entry h; simp [Core.push, h]
  · intro cap entries; exact core_foldl_push_length_le cap entries [] (by simp)
  · decide

theorem push_spec_witness :
    Core.push 3 ["a"] "a" = ["a"] ∧ Core.push 1 ["a"] "b" = ["b"] :=
  ⟨push_spec.1 3 ["a"] "a" rfl,
   by
     have h := push_spec.2.1 1 ["a"] "b" (by decide)
     simpa using h⟩

/-- C6: `select_and_fill(i)` with `i` outside `[0, length)` returns
`IndexOutOfRange` and leaves the store, clipboard, displayed history,
cursor, and visibility unchanged; on success the selected entry content
becomes the clipboard content and the overlay transitions to hidden, with
store, displayed history, and cursor untouched. -/
theorem select_and_fill_spec (sys : Core.Sys) (i : Int) :
    (¬ (0 ≤ i ∧ i < (sys.store.length : Int)) →
        Core.selectAndFill sys i = (sys, .error .IndexOutOfRange)) ∧
    (0 ≤ i → i < (sys.store.length : Int) →
        (Core.selectAndFill sys i).1.clipboard = sys.store.getD i.toNat "" ∧
        (Core.selectAndFill sys i).1.ui.isVisible = false ∧
        (Core.selectAndFill sys i).1.store = sys.store ∧
        (Core.selectAndFill sys i).1.ui.history = sys.ui.history ∧
        (Core.selectAndFill sys i).1.ui.selectedIndex = sys.ui.selectedIndex ∧
        (Core.selectAndFill sys i).2 = .ok ()) := by
  constructor
  · intro h
    simp [Core.selectAndFill, Core.select_and_fill, h]
  · intro h1 h2
    simp [Core.selectAndFill, Core.select_and_fill, h1, h2]

theorem select_and_fill_spec_witness :
    Core.selectAndFill ⟨["a", "b"], "", Clip.init⟩ 7
      = (⟨["a", "b"], "", Clip.init⟩, .error .IndexOutOfRange) ∧
    (Core.selectAndFill ⟨["a", "b"], "", ⟨["a", "b"], 1, true⟩⟩ 1).1.clipboard = "b" ∧
    (Core.selectAndFill ⟨["a", "b"], "", ⟨["a", "b"], 1, true⟩⟩ 1).1.ui.isVisible = false :=
  ⟨(select_and_fill_spec ⟨["a", "b"], "", Clip.init⟩ 7).1 (by decide),
   ((select_and_fill_spec ⟨["a", "b"], "", ⟨["a", "b"], 1, true⟩⟩ 1).2 (by decide) (by decide)).1,
   ((select_and_fill_spec ⟨["a", "b"], "", ⟨["a", "b"], 1, true⟩⟩ 1).2 (by decide) (by decide)).2.1⟩

/-- C7: after a streaming-reset clears the accumulated output, receiving
fragments `f1, …, fn` in arrival order leaves the accumulated output equal
to their concatenation; and a mid-stream language change first empties the
accumulated output and then starts a new session. -/
theorem streaming_accumulation_spec (acc : String) (sid : Nat) (frags : List String)
    (s : RD.LCState) (hs : s.originalText ≠ "") :
    RD.run acc (RD.Event.clean :: frags.map (fun f => RD.Event.update sid (some f)))
      = String.join frags ∧
    (RD.handleLanguageChange s).writes.head? = some "" ∧
    (RD.handleLanguageChange s).invoked.isSome = true := by
  refine ⟨?_, ?_, ?_⟩
  · show RD.run (RD.stepText acc RD.Event.clean) _ = _
    rw [show RD.stepText acc RD.Event.clean = "" from rfl, rd_run_map_update,
      String.empty_append]
  · simp only [RD.handleLanguageChange, if_neg hs]
    split <;> rfl
  · simp only [RD.handleLanguageChange, if_neg hs]
    split <;> rfl

theorem streaming_accumulation_spec_witness :
    RD.run "old-session-text"
        (RD.Event.clean :: (["He", "llo"].map (fun f => RD.Event.update 3 (some f))))
      = "Hello" ∧
    (RD.handleLanguageChange ⟨"translation", "hi", "英文", "简体中文", "中文", "old"⟩).writes.head?
      = some "" := by
  have h := streaming_accumulation_spec "old-session-text" 3 ["He", "llo"]
    ⟨"translation", "hi", "英文", "简体中文", "中文", "old"⟩ (by decide)
  exact ⟨h.1.trans (by decide), h.2.1⟩

/-- C1 counterexample: the consumer's current session is session 2 and its
streaming-reset has fired (`result-clean`), yet a late `result-update`
tagged with superseded session 1 is still appended to the display — the
listener never consults the session-id tag. -/
theorem stale_fragment_appended_cex :
    (1 : Nat) ≠ 2 ∧
    RD.run "output-from-A" [RD.Event.clean, RD.Event.update 1 (some "stale")] = "stale" :=
  ⟨by decide, rfl⟩

/-- C1 amended: the result-display consumer appends every fragment whose
content is non-empty regardless of its session-id tag (the listener reads
only `data.content`); in particular, after a superseding session's
streaming-reset, a late fragment tagged with the old session id is still
appended. -/
theorem fragment_append_ignores_tag (acc : String) (a b sid : Nat) (c : Option String)
    (f : String) (hf : f ≠ "") :
    RD.stepText acc (RD.Event.update a c) = RD.stepText acc (RD.Event.update b c) ∧
    RD.run acc [RD.Event.clean, RD.Event.update sid (some f)] = f := by
  constructor
  · rfl
  · simp only [RD.run, List.foldl]
    simp [RD.stepText, RD.onResultUpdate, RD.truthy, hf, String.empty_append]

theorem fragment_append_ignores_tag_witness :
    RD.stepText "x" (RD.Event.update 1 (some "y")) = RD.stepText "x" (RD.Event.update 2 (some "y")) ∧
    RD.run "x" [RD.Event.clean, RD.Event.update 1 (some "z")] = "z" :=
  ⟨(fragment_append_ignores_tag "x" 1 2 1 (some "y") "z" (by decide)).1,
   (fragment_append_ignores_tag "x" 1 2 1 (some "y") "z" (by decide)).2⟩

/-- C5: with the overlay visible and the cursor within its invariant range,
ArrowLeft moves the cursor to `cursorIndex - 1` clamped at `0`, ArrowRight
moves it to `cursorIndex + 1` clamped at `length - 1`, neither wraps around
nor touches the history or visibility, and both keys are no-ops when the
history is empty. -/
theorem arrow_navigation_clamps (s : Clip.State) (b : Bool)
    (hv : s.isVisible = true) (hlo : -1 ≤ s.selectedIndex)
    (hhi : s.selectedIndex < (s.history.length : Int)) :
    (0 < s.history.length →
      (Clip.handleKeydown s .arrowLeft b).selectedIndex = max (s.selectedIndex - 1) 0 ∧
      (Clip.handleKeydown s .arrowRight b).selectedIndex
        = min (s.selectedIndex + 1) ((s.history.length : Int) - 1) ∧
      (Clip.handleKeydown s .arrowLeft b).history = s.history ∧
      (Clip.handleKeydown s .arrowRight b).history = s.history ∧
      (Clip.handleKeydown s .arrowLeft b).isVisible = s.isVisible ∧
      (Clip.handleKeydown s .arrowRight b).isVisible = s.isVisible) ∧
    (s.history.length = 0 →
      Clip.handleKeydown s .arrowLeft b = s ∧ Clip.handleKeydown s .arrowRight b = s) := by
  constructor
  · intro hlen
    refine ⟨?_, ?_, ?_, ?_, ?_, ?_⟩ <;>
      · simp only [Clip.handleKeydown, Clip.updateSelection, hv]
        split_ifs <;> simp_all <;> omega
  · intro hlen
    constructor <;>
      · simp only [Clip.handleKeydown, Clip.updateSelection, hv]
        split_ifs <;> simp_all

theorem arrow_navigation_clamps_witness :
    (Clip.handleKeydown ⟨["a", "b", "c"], 1, true⟩ .arrowRight false).selectedIndex = 2 := by
  have h := (arrow_navigation_clamps ⟨["a", "b", "c"], 1, true⟩ false rfl (by decide)
    (by decide)).1 (by decide)
  exact h.2.1.trans (by decide)

theorem cursorOk_updateSelection {s : Clip.State} (h : Clip.CursorOk s) (i : Int) :
    Clip.CursorOk (Clip.updateSelection s i) := by
  unfold Clip.updateSelection
  split
  · exact h
  · next hcond =>
      intro _
      push_neg at hcond
      simp only
      omega

theorem cursorOk_showWindow (s : Clip.State) (p : Clip.ShowPayload) :
    Clip.CursorOk (Clip.showWindow s p) := by
  unfold Clip.CursorOk
  simp only [Clip.showWindow, Clip.updateSelection]
  split_ifs <;> intro hlen <;> simp_all

theorem cursorOk_deleteItem {s : Clip.State} (h : Clip.CursorOk s) (i : Nat) :
    Clip.CursorOk (Clip.deleteItem s i) := by
  unfold Clip.deleteItem Clip.CursorOk
  intro hlen
  simp only at hlen ⊢
  by_cases hi : i < s.history.length
  · have hlen' := List.length_eraseIdx_of_lt hi
    have hs := h (by omega)
    rw [hlen'] at hlen ⊢
    split_ifs <;> omega
  · have heq : s.history.eraseIdx i = s.history := List.eraseIdx_of_length_le (by omega)
    rw [heq] at hlen ⊢
    have hs := h hlen
    split_ifs <;> omega

theorem cursorOk_handleKeydown {s : Clip.State} (h : Clip.CursorOk s) (k : Clip.Key)
    (b : Bool) : Clip.CursorOk (Clip.handleKeydown s k b) := by
  unfold Clip.handleKeydown
  split
  · exact h
  · split
    · by_cases hl : 0 < s.history.length
      · rw [if_pos hl]; exact cursorOk_updateSelection h _
      · rw [if_neg hl]; exact h
    · by_cases hl : 0 < s.history.length
      · rw [if_pos hl]; exact cursorOk_updateSelection h _
      · rw [if_neg hl]; exact h
    · by_cases hc : 0 ≤ s.selectedIndex ∧ s.selectedIndex < (s.history.length : Int)
      · rw [if_pos hc]
        unfold Clip.selectAndFillDirect
        split
        · exact h
        · exact h
      · rw [if_neg hc]; exact h

theorem cursorOk_step {s : Clip.State} (h : Clip.CursorOk s) (e : Clip.Event) :
    Clip.CursorOk (Clip.step s e) := by
  cases e with
  | showEv p => exact cursorOk_showWindow s p
  | key k fillOk => exact cursorOk_handleKeydown h k fillOk
  | click i => exact cursorOk_updateSelection h _
  | dblclick i fillOk =>
      show Clip.CursorOk (if i < s.history.length then Clip.selectAndFillDirect s fillOk else s)
      split
      · unfold Clip.selectAndFillDirect
        split
        · exact h
        · exact h
      · exact h
  | delete i => exact cursorOk_deleteItem h i
  | blurEv ok =>
      show Clip.CursorOk (Clip.blur s ok)
      unfold Clip.blur
      split
      · exact h
      · exact h

/-- C2 counterexample: from the initial state, a show-trigger delivering an
empty snapshot with requested index `0` produces a state whose displayed
history has length `0` while the cursor is `0`, not the "none" sentinel
`-1` — refuting `length = 0 ⇒ cursorIndex = none`. -/
theorem cursor_none_on_empty_cex :
    (Clip.step Clip.init (.showEv ⟨some [], some 0⟩)).history.length = 0 ∧
    (Clip.step Clip.init (.showEv ⟨some [], some 0⟩)).selectedIndex = 0 ∧
    (Clip.step Clip.init (.showEv ⟨some [], some 0⟩)).selectedIndex ≠ -1 := by
  decide

/-- C2 amended: after every transition of the overlay, whenever the
displayed history is non-empty the cursor satisfies
`0 ≤ cursorIndex < length`; when the displayed history is empty the cursor
is *not* forced to the "none" sentinel (an empty-snapshot show-trigger sets
it to the requested index, default `0`, and deleting the last entry leaves
it at `0`). -/
theorem cursor_in_range_of_reachable (s : Clip.State) (h : Clip.Reachable s) :
    Clip.CursorOk s := by
  induction h with
  | init => intro hlen; simp [Clip.init] at hlen
  | step e _ ih => exact cursorOk_step ih e

theorem cursor_in_range_of_reachable_witness :
    Clip.CursorOk (Clip.step Clip.init (.showEv ⟨some ["a", "b"], some 1⟩)) :=
  cursor_in_range_of_reachable _ (Clip.Reachable.step _ Clip.Reachable.init)

/-- C3 counterexample: in the reachable state displaying the single-entry
snapshot `["a"]` with the cursor on it, the overlay delete action at index
`0` empties the displayed history yet leaves the cursor at `0`
(`Math.max(0, -1)`), not at the "none" sentinel `-1` as the claim
requires. -/
theorem delete_empty_cursor_cex :
    (Clip.step (Clip.step Clip.init (.showEv ⟨some ["a"], some 0⟩)) (.delete 0)).history = [] ∧
    (Clip.step (Clip.step Clip.init (.showEv ⟨some ["a"], some 0⟩)) (.delete 0)).selectedIndex = 0 ∧
    (Clip.step (Clip.step Clip.init (.showEv ⟨some ["a"], some 0⟩)) (.delete 0)).selectedIndex ≠ -1 := by
  decide

/-- C3 amended: deleting the entry at a valid index `i` (cursor within the
invariant range) removes exactly the element at position `i` from the
displayed snapshot, and the cursor becomes `min(old, newLength - 1)` when
the snapshot stays non-empty, and `0` — not the "none" sentinel — when the
snapshot becomes empty. -/
theorem deleteItem_clamps (s : Clip.State) (i : Nat)
    (hlo : 0 ≤ s.selectedIndex) (hhi : s.selectedIndex < (s.history.length : Int))
    (hi : i < s.history.length) :
    (Clip.deleteItem s i).history = s.history.eraseIdx i ∧
    (Clip.deleteItem s i).isVisible = s.isVisible ∧
    (0 < (s.history.eraseIdx i).length →
      (Clip.deleteItem s i).selectedIndex
        = min s.selectedIndex (((s.history.eraseIdx i).length : Int) - 1)) ∧
    ((s.history.eraseIdx i).length = 0 → (Clip.deleteItem s i).selectedIndex = 0) := by
  have hlen' := List.length_eraseIdx_of_lt hi
  unfold Clip.deleteItem
  refine ⟨rfl, rfl, ?_, ?_⟩
  · intro hpos
    simp only
    rw [hlen'] at hpos ⊢
    split_ifs <;> omega
  · intro hzero
    simp only
    rw [hlen'] at hzero ⊢
    split_ifs <;> omega

theorem deleteItem_clamps_witness :
    (Clip.deleteItem ⟨["a", "b", "c"], 2, true⟩ 0).history = ["b", "c"] ∧
    (Clip.deleteItem ⟨["a", "b", "c"], 2, true⟩ 0).selectedIndex = 1 := by
  have h := deleteItem_clamps ⟨["a", "b", "c"], 2, true⟩ 0 (by decide) (by decide) (by decide)
  exact ⟨h.1.trans (by decide), (h.2.2.1 (by decide)).trans (by decide)⟩

/-- C4 counterexample: a show-trigger delivering an empty snapshot (with no
requested index) to an overlay that is already visible sets the cursor to
`0`, not to the "none" sentinel `-1` as the claim requires for an empty
snapshot. -/
theorem show_empty_cursor_cex :
    (Clip.showWindow ⟨["a"], 0, true⟩ ⟨some [], none⟩).history = [] ∧
    (Clip.showWindow ⟨["a"], 0, true⟩ ⟨some [], none⟩).selectedIndex = 0 ∧
    (Clip.showWindow ⟨["a"], 0, true⟩ ⟨some [], none⟩).selectedIndex ≠ -1 := by
  decide

/-- C4 amended: every show-trigger (also while already visible) replaces
the displayed snapshot with the trigger's history and marks the overlay
visible; the cursor is reset to the trigger's requested index when that
index is valid for a non-empty snapshot, to `0` when it is unspecified or
out of range for a non-empty snapshot, and to the requested index (default
`0`) — not the "none" sentinel — when the delivered snapshot is empty. -/
theorem showWindow_replaces_snapshot (s : Clip.State) (p : Clip.ShowPayload) :
    (Clip.showWindow s p).history = p.history.getD [] ∧
    (Clip.showWindow s p).isVisible = true ∧
    (0 < (p.history.getD []).length →
      (Clip.showWindow s p).selectedIndex
        = (if p.selectedIndex.getD 0 < 0 ∨ ((p.history.getD []).length : Int) ≤ p.selectedIndex.getD 0
            then 0 else p.selectedIndex.getD 0)) ∧
    ((p.history.getD []).length = 0 →
      (Clip.showWindow s p).selectedIndex = p.selectedIndex.getD 0) := by
  simp only [Clip.showWindow, Clip.updateSelection]
  refine ⟨?_, ?_, ?_, ?_⟩
  · split_ifs <;> rfl
  · split_ifs <;> rfl
  · intro hpos
    split_ifs <;> simp_all
  · intro hzero
    split_ifs <;> simp_all

theorem showWindow_replaces_snapshot_witness :
    (Clip.showWindow Clip.init ⟨some ["a", "b"], some 9⟩).history = ["a", "b"] ∧
    (Clip.showWindow Clip.init ⟨some ["a", "b"], some 9⟩).isVisible = true ∧
    (Clip.showWindow Clip.init ⟨some ["a", "b"], some 9⟩).selectedIndex = 0 := by
  have h := showWindow_replaces_snapshot Clip.init ⟨some ["a", "b"], some 9⟩
  exact ⟨h.1.trans (by decide), h.2.1, (h.2.2.1 (by decide)).trans (by decide)⟩
